import Mathlib

/-!
Verification development for the pomo-chan Pomodoro timer application.

The TypeScript sources are shallowly embedded here:
* JavaScript numbers are modelled by `JSNum` (NaN / ±Infinity / a rational),
  since the duration-policy code only uses finiteness tests, `Math.round`,
  comparisons and integer arithmetic on them.
* `src/lib/pomodoro.ts` becomes `clampTimerMinutes` / `getModeSeconds`.
* The timer state machine from `src/lib/hooks/timer-hooks.ts`
  (`usePomodoroTimer`) becomes pure transition functions on `TimerState`
  returning the emitted audio / session events.
* The configuration handlers of `src/main.ts` (`getConfig`, `config:set`)
  become pure functions on `AppConfig`.
* The import pipeline of `src/main.ts` (`extractSessionRecords`,
  `sessions:import`) is embedded over a JSON value type `JValue`.
* `listSessions` from `src/session-store.ts` is embedded over an in-memory
  list of session rows standing for the `sessions` table.
-/

namespace Pomo

/-- The two timer phases, `Mode` in `src/lib/pomodoro.ts`
(`"focus" | "break"`; `break` is a reserved word in Lean, so the break
phase is called `brk`). -/
inductive Mode
  | focus
  | brk
  deriving DecidableEq, Repr

/-- A JavaScript number as used by the duration policy: either non-finite
(NaN, ±Infinity) or an exact rational value. -/
inductive JSNum
  | nan
  | posInf
  | negInf
  | num (q : ℚ)
  deriving DecidableEq, Repr

namespace JSNum

/-- Embedding of `Number.isFinite`. -/
def isFinite : JSNum → Bool
  | num _ => true
  | _ => false

/-- Embed an integer as a JavaScript number. -/
def ofInt (n : ℤ) : JSNum := num (n : ℚ)

end JSNum

/-- JavaScript `Math.round` on a finite value: rounds to the nearest
integer, ties toward positive infinity, i.e. `⌊q + 1/2⌋`. -/
def jsRound (q : ℚ) : ℤ := Int.floor (q + 1/2)

/-- Constant `MIN_TIMER_MINUTES` from `src/lib/pomodoro.ts`. -/
def MIN_TIMER_MINUTES : ℤ := 1

/-- Constant `MAX_TIMER_MINUTES` from `src/lib/pomodoro.ts`. -/
def MAX_TIMER_MINUTES : ℤ := 120

/-- Constant `DEFAULT_FOCUS_MINUTES` from `src/lib/pomodoro.ts`. -/
def DEFAULT_FOCUS_MINUTES : ℤ := 25

/-- Constant `DEFAULT_BREAK_MINUTES` from `src/lib/pomodoro.ts`. -/
def DEFAULT_BREAK_MINUTES : ℤ := 5

/-- Function `clampTimerMinutes` from `src/lib/pomodoro.ts`:
non-finite input maps to `MIN_TIMER_MINUTES`; otherwise the value is
rounded (`Math.round`) and clamped to `[MIN, MAX]` via
`Math.min(MAX, Math.max(MIN, rounded))`. -/
def clampTimerMinutes : JSNum → ℤ
  | JSNum.num q => min MAX_TIMER_MINUTES (max MIN_TIMER_MINUTES (jsRound q))
  | _ => MIN_TIMER_MINUTES

/-- Function `getModeSeconds` from `src/lib/pomodoro.ts`: select the minutes for the
mode, clamp, multiply by 60. -/
def getModeSeconds (mode : Mode) (focusMinutes breakMinutes : JSNum) : ℤ :=
  clampTimerMinutes (if mode = Mode.focus then focusMinutes else breakMinutes) * 60

/-- Ambient volume record, `Record<AmbientSound, number>` with the three
keys `fire`, `rain`, `forest` (`src/lib/ambient.ts`). -/
structure AmbientVolumes where
  fire : JSNum
  rain : JSNum
  forest : JSNum
  deriving DecidableEq, Repr

/-- Constant `DEFAULT_AMBIENT_VOLUMES` from `src/lib/ambient.ts`. -/
def DEFAULT_AMBIENT_VOLUMES : AmbientVolumes :=
  { fire := JSNum.ofInt 0, rain := JSNum.ofInt 0, forest := JSNum.ofInt 0 }

/-- Voice language, `"en" | "jp"`. -/
inductive AudioLanguage
  | en
  | jp
  deriving DecidableEq, Repr

/-- Structure `AppConfig` as used by `src/main.ts` and the current renderer. -/
structure AppConfig where
  playTick : Bool
  audioLanguage : AudioLanguage
  ambientVolumes : AmbientVolumes
  focusMinutes : JSNum
  breakMinutes : JSNum
  deriving DecidableEq, Repr

/-- The `configStore` defaults in `src/main.ts` (lines 170-182). -/
def defaultConfig : AppConfig :=
  { playTick := false
    audioLanguage := AudioLanguage.jp
    ambientVolumes := DEFAULT_AMBIENT_VOLUMES
    focusMinutes := JSNum.ofInt DEFAULT_FOCUS_MINUTES
    breakMinutes := JSNum.ofInt DEFAULT_BREAK_MINUTES }

/-- Total seconds for a mode under a configuration: `getModeSeconds` applied
to the configured minutes. -/
def totalFor (cfg : AppConfig) (m : Mode) : ℤ :=
  getModeSeconds m cfg.focusMinutes cfg.breakMinutes

/-- The opposite mode, `mode === "focus" ? "break" : "focus"`
(`src/lib/hooks/timer-hooks.ts`). -/
def opposite : Mode → Mode
  | Mode.focus => Mode.brk
  | Mode.brk => Mode.focus

/-- One app-usage segment supplied by the usage-tracking collaborator
(`SessionAppUsage` in `src/lib/hooks/session-hooks.ts`). -/
structure UsageSeg where
  appName : String
  startedAt : String
  endedAt : String
  deriving DecidableEq, Repr

/-- Timer state machine state (`usePomodoroTimer` in
`src/lib/hooks/timer-hooks.ts`): `mode`, `remaining`, `isRunning`,
`pendingMode`, the tick/tock alternation flag `nextTickIsTick`, plus the
`focusStartedAt` timestamp from spec §3 (the focus-session timestamp the
in-src hook variant does not yet track). Timestamps are naturals. -/
structure TimerState where
  mode : Mode
  remaining : ℤ
  isRunning : Bool
  pendingMode : Option Mode
  focusStartedAt : Option ℕ
  nextTickIsTick : Bool
  deriving DecidableEq, Repr

/-- Audio cue events: `start`, and the mode-`end` cue (named `finish` here
because `end` is a Lean keyword). -/
inductive AudioEvent
  | start
  | finish
  deriving DecidableEq, Repr

/-- Observable side effects of a transition: voice cues (`playSound`),
tick/tock metronome plays, and the completed-session event handed to
`useSessionRecorder.addSession` (which passes its argument through
unchanged to the storage collaborator, `src/lib/hooks/session-hooks.ts`
lines 37-58). -/
inductive Ev
  | cue (m : Mode) (e : AudioEvent)
  | tickTock (isTick : Bool)
  | sessionCompleted (startedAt endedAt : ℕ)
      (focusSeconds : Option ℤ) (appUsage : List UsageSeg)
  deriving DecidableEq, Repr

/-- Is an event a completed-session event? -/
def Ev.isSession : Ev → Bool
  | Ev.sessionCompleted _ _ _ _ => true
  | _ => false

/-- Initial timer state: Idle-Focus with `remaining` equal to the full
Focus total (`useState(MODES.focus.seconds)` in the hook; the total is
derived from the configuration per spec §3). -/
def initState (cfg : AppConfig) : TimerState :=
  { mode := Mode.focus
    remaining := totalFor cfg Mode.focus
    isRunning := false
    pendingMode := none
    focusStartedAt := none
    nextTickIsTick := true }

/-- The Tick transition, from the interval handler in
`src/lib/hooks/timer-hooks.ts` lines 109-137: only while running; play a
tick/tock cue when `config.playTick`, alternating strictly; if the prior
`remaining` is ≤ 1 treat as completion (play the completing mode's end
cue, flip the mode, stop, reset `remaining` to the new mode's total),
otherwise decrement.

The completed-session emission is Modelled from the spec: §4.3 Tick — "if
completed mode is Focus and a focus-started-at timestamp is recorded, emit
a completed-session event with startedAt = focus-started-at, endedAt = now
(plus any externally-supplied app-usage/focus-seconds, passed through
unchanged) and clear focus-started-at"; the in-src hook variant does not
record sessions. `fs`/`usage` are the collaborator-supplied extras. -/
def tick (cfg : AppConfig) (now : ℕ) (fs : Option ℤ) (usage : List UsageSeg)
    (s : TimerState) : TimerState × List Ev :=
  if !s.isRunning then (s, [])
  else
    let tickEvs := if cfg.playTick then [Ev.tickTock s.nextTickIsTick] else []
    let nextAlt := if cfg.playTick then !s.nextTickIsTick else s.nextTickIsTick
    if s.remaining ≤ 1 then
      let nextMode := opposite s.mode
      let sessionEvs :=
        if s.mode = Mode.focus then
          match s.focusStartedAt with
          | some t0 => [Ev.sessionCompleted t0 now fs usage]
          | none => []
        else []
      ({ s with
          mode := nextMode
          isRunning := false
          remaining := totalFor cfg nextMode
          focusStartedAt := none
          nextTickIsTick := nextAlt },
        tickEvs ++ [Ev.cue s.mode AudioEvent.finish] ++ sessionEvs)
    else
      ({ s with remaining := s.remaining - 1, nextTickIsTick := nextAlt }, tickEvs)

/-- Toggle-Running, from `toggleRunning` in `src/lib/hooks/timer-hooks.ts`
lines 153-161: flip `isRunning`, and on the transition into running play
the current mode's start cue.

The `focusStartedAt` stamping is Modelled from the spec: §4.3
Toggle-Running — "if entering Focus from a state where remaining equals
the full total for Focus and no focus-started-at is set, stamp
focus-started-at = now"; the in-src hook variant does not stamp. -/
def toggleRunning (cfg : AppConfig) (now : ℕ) (s : TimerState) :
    TimerState × List Ev :=
  let next := !s.isRunning
  let evs := if next then [Ev.cue s.mode AudioEvent.start] else []
  let fsa :=
    if next && s.mode = Mode.focus
        && s.remaining = totalFor cfg Mode.focus
        && s.focusStartedAt = none then
      some now
    else s.focusStartedAt
  ({ s with isRunning := next, focusStartedAt := fsa }, evs)

/-- Apply-Mode-Switch, from `applyModeSwitch` in
`src/lib/hooks/timer-hooks.ts` lines 147-151: stop, set the mode and reset
`remaining` to the new mode's total. Clearing `focusStartedAt` is Modelled
from the spec: §4.3 Apply-Mode-Switch "clears focus-started-at". -/
def applyModeSwitch (cfg : AppConfig) (nextMode : Mode) (s : TimerState) :
    TimerState :=
  { s with
      isRunning := false
      mode := nextMode
      remaining := totalFor cfg nextMode
      focusStartedAt := none }

/-- Request-Mode-Switch, from `requestModeSwitch` in
`src/lib/hooks/timer-hooks.ts` lines 163-171: if running or progress has
been made (`remaining ≠ total` for the current mode), only set
`pendingMode`; otherwise switch immediately. -/
def requestModeSwitch (cfg : AppConfig) (s : TimerState) : TimerState :=
  let nextMode := opposite s.mode
  let total := totalFor cfg s.mode
  if s.isRunning || s.remaining ≠ total then
    { s with pendingMode := some nextMode }
  else
    applyModeSwitch cfg nextMode s

/-- Confirm-Switch, from `confirmModeSwitch` in
`src/lib/hooks/timer-hooks.ts` lines 173-177: no-op unless `pendingMode`
is set; otherwise apply the switch and clear `pendingMode`. -/
def confirmModeSwitch (cfg : AppConfig) (s : TimerState) : TimerState :=
  match s.pendingMode with
  | none => s
  | some m => { applyModeSwitch cfg m s with pendingMode := none }

/-- Cancel-Switch, from `cancelModeSwitch` in
`src/lib/hooks/timer-hooks.ts` lines 179-181: clear `pendingMode` only. -/
def cancelModeSwitch (s : TimerState) : TimerState :=
  { s with pendingMode := none }

/-- Modelled from the spec: §4.3 Configuration-Changed. The in-src
`usePomodoroTimer` variant derives its totals from the constant `MODES`
record and has no remaining-seconds reconciliation, so this transition is
missing from src/ and is taken from the spec's words: while running the
timer state is untouched (only the stored totals, i.e. the configuration,
change); while idle, a remaining equal to the old total snaps to the new
total, a remaining above the new total clamps down to it, and otherwise
remaining is left alone. -/
def configChanged (oldCfg newCfg : AppConfig) (s : TimerState) : TimerState :=
  if s.isRunning then s
  else
    let oldTotal := totalFor oldCfg s.mode
    let newTotal := totalFor newCfg s.mode
    if s.remaining = oldTotal then { s with remaining := newTotal }
    else if s.remaining > newTotal then { s with remaining := newTotal }
    else s

/-- The full system the timer surface sees: the current configuration plus
the timer state. -/
structure Sys where
  cfg : AppConfig
  st : TimerState
  deriving DecidableEq, Repr

/-- The transitions of spec §4.3 as a single action type. `tick` carries
the wall-clock time and the collaborator-supplied session extras;
`configChange` carries the new configuration. -/
inductive Act
  | tick (now : ℕ) (fs : Option ℤ) (usage : List UsageSeg)
  | toggle (now : ℕ)
  | request
  | confirm
  | cancel
  | applySwitch (m : Mode)
  | configChange (newCfg : AppConfig)

/-- One system step: run the corresponding transition, discarding the
emitted events. -/
def step (s : Sys) : Act → Sys
  | Act.tick now fs usage => { s with st := (tick s.cfg now fs usage s.st).1 }
  | Act.toggle now => { s with st := (toggleRunning s.cfg now s.st).1 }
  | Act.request => { s with st := requestModeSwitch s.cfg s.st }
  | Act.confirm => { s with st := confirmModeSwitch s.cfg s.st }
  | Act.cancel => { s with st := cancelModeSwitch s.st }
  | Act.applySwitch m => { s with st := applyModeSwitch s.cfg m s.st }
  | Act.configChange newCfg =>
      { cfg := newCfg, st := configChanged s.cfg newCfg s.st }

/-- The initial system: some configuration together with the fresh
Idle-Focus timer state. -/
def initSys (cfg : AppConfig) : Sys := { cfg := cfg, st := initState cfg }

/-- Run a sequence of actions from a system state. -/
def run (s : Sys) (acts : List Act) : Sys := acts.foldl step s

/-- The timer invariant of spec §8: remaining never exceeds the total of
the active mode. -/
def Inv (s : Sys) : Prop := s.st.remaining ≤ totalFor s.cfg s.st.mode

instance (s : Sys) : Decidable (Inv s) := by
  unfold Inv; infer_instance

/-- A sequence of actions is idle-config-change admissible from `s` when
every `configChange` in it arrives while the timer is not running. -/
def IdleCfgOk : Sys → List Act → Prop
  | _, [] => True
  | s, a :: rest =>
      (match a with
        | Act.configChange _ => s.st.isRunning = false
        | _ => True) ∧ IdleCfgOk (step s a) rest

/-! ## Configuration synchronization (`src/main.ts`) -/

/-- A partial configuration update, `Partial<AppConfig>` where the
ambient-volume record may itself carry any subset of the three keys (the
handler spreads it key by key). -/
structure PartialAmbientVolumes where
  fire : Option JSNum := none
  rain : Option JSNum := none
  forest : Option JSNum := none
  deriving DecidableEq, Repr

/-- Shape `Partial<AppConfig>` as received by the `config:set` handler. -/
structure PartialAppConfig where
  playTick : Option Bool := none
  audioLanguage : Option AudioLanguage := none
  ambientVolumes : Option PartialAmbientVolumes := none
  focusMinutes : Option JSNum := none
  breakMinutes : Option JSNum := none
  deriving DecidableEq, Repr

/-- Function `getConfig` from `src/main.ts` lines 228-236: read every key of the
persisted store back as a full snapshot (no further normalization on the
read path). The store itself is modelled as an `AppConfig` value, which is
what `electron-store` holds once its per-key defaults are in place. -/
def getConfig (store : AppConfig) : AppConfig :=
  { playTick := store.playTick
    audioLanguage := store.audioLanguage
    ambientVolumes := store.ambientVolumes
    focusMinutes := store.focusMinutes
    breakMinutes := store.breakMinutes }

/-- The merge of the `config:set` handler (`src/main.ts` lines 456-479):
spread the partial over the current configuration, but independently
re-clamp each minutes field that the partial supplies, and merge the
ambient-volume record key by key (`{...current.ambientVolumes,
...(value.ambientVolumes ?? {})}`). -/
def configSet (current : AppConfig) (value : PartialAppConfig) : AppConfig :=
  let nextFocusMinutes :=
    match value.focusMinutes with
    | none => current.focusMinutes
    | some v => JSNum.ofInt (clampTimerMinutes v)
  let nextBreakMinutes :=
    match value.breakMinutes with
    | none => current.breakMinutes
    | some v => JSNum.ofInt (clampTimerMinutes v)
  let partialAmbient := value.ambientVolumes.getD {}
  { playTick := value.playTick.getD current.playTick
    audioLanguage := value.audioLanguage.getD current.audioLanguage
    ambientVolumes :=
      { fire := partialAmbient.fire.getD current.ambientVolumes.fire
        rain := partialAmbient.rain.getD current.ambientVolumes.rain
        forest := partialAmbient.forest.getD current.ambientVolumes.forest }
    focusMinutes := nextFocusMinutes
    breakMinutes := nextBreakMinutes }

/-- Result of the `config:set` handler: the configuration written to the
store (`configStore.set`), the configuration broadcast to all windows
(`broadcastConfig`), and the handler's return value. -/
structure ConfigSetResult where
  persisted : AppConfig
  broadcast : AppConfig
  returned : AppConfig
  deriving DecidableEq, Repr

/-- The `config:set` handler (`src/main.ts` lines 456-479): merge, persist
the merged configuration, broadcast it, return it. -/
def configSetHandler (store : AppConfig) (value : PartialAppConfig) :
    ConfigSetResult :=
  let nextConfig := configSet (getConfig store) value
  { persisted := nextConfig, broadcast := nextConfig, returned := nextConfig }

/-- Apply a sequence of `config:set` updates to the persisted store. -/
def applyConfigOps (store : AppConfig) (ops : List PartialAppConfig) :
    AppConfig :=
  ops.foldl (fun st op => (configSetHandler st op).persisted) store

/-- A JavaScript number holding an integer in `[MIN, MAX]` timer minutes. -/
def IsClampedMinutes (v : JSNum) : Prop :=
  ∃ n : ℤ, v = JSNum.ofInt n ∧ MIN_TIMER_MINUTES ≤ n ∧ n ≤ MAX_TIMER_MINUTES

/-! ## Session import (`src/main.ts` lines 515-585 and 643-663) -/

/-- A JSON value, the possible results of `JSON.parse`. Object fields are
an association list (well-formed JSON: keys unique, first match wins). -/
inductive JValue
  | null
  | bool (b : Bool)
  | num (n : JSNum)
  | str (s : String)
  | arr (xs : List JValue)
  | obj (fields : List (String × JValue))

namespace JValue

/-- Test `payload && typeof payload === "object"`: a truthy value of type
"object". After `JSON.parse` these are exactly the non-null objects and
arrays. -/
def isTruthyObject : JValue → Bool
  | arr _ => true
  | obj _ => true
  | _ => false

/-- JavaScript property access by (non-index) name: defined only on
objects; `none` models `undefined`. -/
def getField : JValue → String → Option JValue
  | obj fields, key => (fields.find? (fun f => f.1 = key)).map (fun f => f.2)
  | _, _ => none

end JValue

/-- Record `SessionRecord` as produced by `extractSessionRecords`: string
timestamps, an optional finite numeric `focusSeconds`, and app-usage
segments that are absent (`undefined`) when the payload had no array. -/
structure SessionRecord where
  startedAt : String
  endedAt : String
  focusSeconds : Option ℚ
  appUsage : Option (List UsageSeg)
  deriving DecidableEq, Repr

/-- The per-segment validation inside `extractSessionRecords`
(`src/main.ts` lines 549-568): a segment survives only if it is a truthy
object whose `appName`, `startedAt` and `endedAt` are all strings. -/
def extractUsageSeg (v : JValue) : Option UsageSeg :=
  if !v.isTruthyObject then none
  else
    match v.getField "appName", v.getField "startedAt", v.getField "endedAt" with
    | some (JValue.str name), some (JValue.str st), some (JValue.str en) =>
        some { appName := name, startedAt := st, endedAt := en }
    | _, _, _ => none

/-- The per-entry validation inside `extractSessionRecords` (`src/main.ts`
lines 528-577): an entry survives only if it is a truthy object whose
`startedAt` and `endedAt` are strings; `focusSeconds` is kept only when it
is a finite number; `appUsage` is kept (with malformed segments dropped)
only when it is an array. -/
def extractEntry (v : JValue) : Option SessionRecord :=
  if !v.isTruthyObject then none
  else
    match v.getField "startedAt", v.getField "endedAt" with
    | some (JValue.str st), some (JValue.str en) =>
        let focusSeconds :=
          match v.getField "focusSeconds" with
          | some (JValue.num (JSNum.num q)) => some q
          | _ => none
        let appUsage :=
          match v.getField "appUsage" with
          | some (JValue.arr segs) => some (segs.filterMap extractUsageSeg)
          | _ => none
        some { startedAt := st, endedAt := en
               focusSeconds := focusSeconds, appUsage := appUsage }
    | _, _ => none

/-- The result triple of `extractSessionRecords`. -/
structure ExtractResult where
  records : List SessionRecord
  recognized : Bool
  sourceCount : ℕ
  deriving DecidableEq, Repr

/-- Function `extractSessionRecords` from `src/main.ts` lines 515-585: unrecognized
unless the payload is a truthy object whose `sessions` property is an
array; otherwise map every array element through the entry validation,
dropping the malformed ones, and report the original array length as
`sourceCount`. -/
def extractSessionRecords (payload : JValue) : ExtractResult :=
  if !payload.isTruthyObject then
    { records := [], recognized := false, sourceCount := 0 }
  else
    match payload.getField "sessions" with
    | some (JValue.arr xs) =>
        { records := xs.filterMap extractEntry
          recognized := true
          sourceCount := xs.length }
    | _ => { records := [], recognized := false, sourceCount := 0 }

/-- Outcome of the `sessions:import` handler after the file has been read
and parsed. -/
inductive ImportResult
  | ok (count : ℕ)
  | invalidFormat
  deriving DecidableEq, Repr

/-- The post-parse tail of the `sessions:import` handler (`src/main.ts`
lines 643-663): reject as `invalid-format` when the payload is
unrecognized or a non-empty `sessions` array produced no acceptable
record; otherwise `replaceSessions(records)` replaces the whole store and
the handler reports the number of imported records. The second component
is the session store after the call. -/
def importSessions (parsed : JValue) (store : List SessionRecord) :
    ImportResult × List SessionRecord :=
  let r := extractSessionRecords parsed
  if !r.recognized || (decide (0 < r.sourceCount) && decide (r.records.length = 0)) then
    (ImportResult.invalidFormat, store)
  else
    (ImportResult.ok r.records.length, r.records)

/-! ## Session listing (`src/session-store.ts` lines 140-183) -/

/-- One row of the `sessions` table together with its
`session_app_usage` rows. -/
structure SessionRow where
  id : ℕ
  startedAt : String
  endedAt : String
  focusSeconds : Option ℤ
  usage : List UsageSeg
  deriving DecidableEq, Repr

/-- An item of the `sessions:list` result (`SessionEntry` in
`src/lib/hooks/session-hooks.ts`). -/
structure SessionEntry where
  id : ℕ
  startedAt : String
  endedAt : String
  focusSeconds : Option ℤ
  hasUsage : Bool
  deriving DecidableEq, Repr

/-- The result shape of `listSessions`. -/
structure SessionList where
  items : List SessionEntry
  total : ℕ
  deriving DecidableEq, Repr

/-- Projection of a table row onto a list item: `hasUsage` is the
`EXISTS (SELECT 1 FROM session_app_usage ...)` flag. -/
def rowToEntry (row : SessionRow) : SessionEntry :=
  { id := row.id
    startedAt := row.startedAt
    endedAt := row.endedAt
    focusSeconds := row.focusSeconds
    hasUsage := !row.usage.isEmpty }

/-- Descending order on rows by `started_at`, the `ORDER BY
sessions.started_at DESC` of the query (SQLite compares TEXT by byte
order, which on UTF-8 ISO timestamps is the string order). -/
def rowDesc (a b : SessionRow) : Prop := b.startedAt ≤ a.startedAt

instance : DecidableRel rowDesc := fun a b =>
  inferInstanceAs (Decidable (b.startedAt ≤ a.startedAt))

instance : IsTotal SessionRow rowDesc :=
  ⟨fun a b => le_total b.startedAt a.startedAt⟩

instance : IsTrans SessionRow rowDesc :=
  ⟨fun _ _ _ hab hbc => le_trans hbc hab⟩

/-- The table sorted by `started_at` descending. -/
def sortRowsDesc (rows : List SessionRow) : List SessionRow :=
  List.insertionSort rowDesc rows

/-- Sanitized page number: `Number.isFinite(page) && page > 0 ? page : 1`
(`src/session-store.ts` line 142). -/
def safePageQ : JSNum → ℚ
  | JSNum.num q => if 0 < q then q else 1
  | _ => 1

/-- Sanitized page size: `Number.isFinite(pageSize) && pageSize > 0 ?
pageSize : 10` (`src/session-store.ts` lines 143-144). -/
def safePageSizeQ : JSNum → ℚ
  | JSNum.num q => if 0 < q then q else 10
  | _ => 10

/-- Outcome of the `sessions:list` query: better-sqlite3 either returns
the page or throws. A JavaScript number is bound as INTEGER when it is
integral and as REAL otherwise, and SQLite raises a datatype-mismatch
error when a LIMIT or OFFSET operand is not an integer. -/
inductive SessionListResult
  | ok (value : SessionList)
  | mismatchError
  deriving DecidableEq, Repr

/-- Function `listSessions` from `src/session-store.ts` lines 140-183:
substitute 1 / 10 for unusable page / pageSize and compute `offset =
(safePage - 1) * safePageSize`. The query runs `LIMIT safePageSize OFFSET
offset`: when either bound operand is a non-integral number (denominator
≠ 1) SQLite raises a datatype-mismatch error, which better-sqlite3
rethrows; otherwise the call returns the page of the table ordered by
`started_at` descending (SQLite treats a negative OFFSET as 0, which
`Int.toNat` mirrors) together with `total = COUNT(*)` over the whole
table. -/
def listSessions (rows : List SessionRow) (page pageSize : JSNum) :
    SessionListResult :=
  let safePage := safePageQ page
  let safePageSize := safePageSizeQ pageSize
  let offset := (safePage - 1) * safePageSize
  if safePageSize.den = 1 ∧ offset.den = 1 then
    SessionListResult.ok
      { items := (((sortRowsDesc rows).drop offset.num.toNat).take
          safePageSize.num.toNat).map rowToEntry
        total := rows.length }
  else
    SessionListResult.mismatchError

/-! ## Helper lemmas -/

lemma clampTimerMinutes_bounds (v : JSNum) :
    MIN_TIMER_MINUTES ≤ clampTimerMinutes v ∧
      clampTimerMinutes v ≤ MAX_TIMER_MINUTES := by
  cases v <;>
    simp only [clampTimerMinutes, MIN_TIMER_MINUTES, MAX_TIMER_MINUTES] <;>
    omega

lemma jsRound_intCast (n : ℤ) : jsRound (n : ℚ) = n := by
  unfold jsRound
  rw [Int.floor_eq_iff]
  norm_num

lemma clampTimerMinutes_ofInt (n : ℤ) (h1 : 1 ≤ n) (h2 : n ≤ 120) :
    clampTimerMinutes (JSNum.ofInt n) = n := by
  simp only [clampTimerMinutes, JSNum.ofInt, jsRound_intCast,
    MIN_TIMER_MINUTES, MAX_TIMER_MINUTES]
  omega

/-! ## Claim theorems -/

/-- C9: for every mode and every focus/break minutes pair,
`getModeSeconds` equals `clampTimerMinutes` of the selected minutes times
60; `clampTimerMinutes` rounds to the nearest integer (it is within 1/2 of
its finite input), clamps into `[1, 120]`, and maps non-finite input to 1;
for an in-range integer selected minutes the result is exactly
`minutes * 60`. Both functions are total Lean functions, hence side-effect
free. -/
theorem getModeSeconds_correct :
    (∀ (mode : Mode) (fm bm : JSNum),
        getModeSeconds mode fm bm
          = clampTimerMinutes (if mode = Mode.focus then fm else bm) * 60)
    ∧ (∀ v : JSNum, v.isFinite = false →
        clampTimerMinutes v = MIN_TIMER_MINUTES)
    ∧ (∀ q : ℚ, |(jsRound q : ℚ) - q| ≤ 1/2)
    ∧ (∀ v : JSNum, MIN_TIMER_MINUTES ≤ clampTimerMinutes v ∧
        clampTimerMinutes v ≤ MAX_TIMER_MINUTES)
    ∧ (∀ (mode : Mode) (fm bm : JSNum) (n : ℤ),
        1 ≤ n → n ≤ 120 →
        (if mode = Mode.focus then fm else bm) = JSNum.ofInt n →
        getModeSeconds mode fm bm = n * 60) := by
  refine ⟨fun _ _ _ => rfl, ?_, ?_, clampTimerMinutes_bounds, ?_⟩
  · intro v h
    cases v <;> simp_all [JSNum.isFinite, clampTimerMinutes]
  · intro q
    rw [abs_le]
    have h1 := Int.floor_le (q + 1/2)
    have h2 := Int.sub_one_lt_floor (q + 1/2)
    unfold jsRound
    constructor <;> linarith
  · intro mode fm bm n h1 h2 hsel
    unfold getModeSeconds
    rw [hsel, clampTimerMinutes_ofInt n h1 h2]

/-- Witness for C9 at the default 25 focus minutes. -/
theorem getModeSeconds_correct_witness :
    getModeSeconds Mode.focus (JSNum.ofInt 25) (JSNum.ofInt 5) = 25 * 60 :=
  getModeSeconds_correct.2.2.2.2 Mode.focus (JSNum.ofInt 25) (JSNum.ofInt 5)
    25 (by norm_num) (by norm_num) rfl

/-- C1: when Configuration-Changed reaches the timer: while running the
state (in particular `remaining`) is untouched, only the configuration's
stored totals change; while idle, a `remaining` equal to the old total of
the current mode snaps to the new total, a `remaining` above the new total
clamps down to the new total, and otherwise `remaining` is untouched. -/
theorem configChanged_policy (oldCfg newCfg : AppConfig) (s : TimerState) :
    (s.isRunning = true → configChanged oldCfg newCfg s = s)
    ∧ (s.isRunning = false → s.remaining = totalFor oldCfg s.mode →
        (configChanged oldCfg newCfg s).remaining = totalFor newCfg s.mode)
    ∧ (s.isRunning = false → s.remaining ≠ totalFor oldCfg s.mode →
        totalFor newCfg s.mode < s.remaining →
        (configChanged oldCfg newCfg s).remaining = totalFor newCfg s.mode)
    ∧ (s.isRunning = false → s.remaining ≠ totalFor oldCfg s.mode →
        s.remaining ≤ totalFor newCfg s.mode →
        (configChanged oldCfg newCfg s).remaining = s.remaining) := by
  refine ⟨?_, ?_, ?_, ?_⟩
  · intro h
    simp [configChanged, h]
  · intro h he
    simp [configChanged, h, he]
  · intro h hne hlt
    simp [configChanged, h, hne, hlt]
  · intro h hne hle
    have hnot : ¬ (totalFor newCfg s.mode < s.remaining) := not_lt.mpr hle
    simp [configChanged, h, hne, hnot]

/-- Configuration with focus-minutes set to 30, the Scenario A update. -/
def focus30Config : AppConfig :=
  { defaultConfig with focusMinutes := JSNum.ofInt 30 }

/-- Witness for C1: Scenario A — an idle fresh Focus timer at remaining
1500 snaps to 1800 when focus-minutes changes to 30. -/
theorem configChanged_policy_witness :
    (configChanged defaultConfig focus30Config
        (initState defaultConfig)).remaining = 1800 := by
  have h := (configChanged_policy defaultConfig focus30Config
      (initState defaultConfig)).2.1 rfl rfl
  have h30 : clampTimerMinutes (JSNum.ofInt 30) = 30 :=
    clampTimerMinutes_ofInt 30 (by norm_num) (by norm_num)
  rw [h]
  show clampTimerMinutes (JSNum.ofInt 30) * 60 = 1800
  rw [h30]
  norm_num

/-- C2: a Tick that completes a Focus interval (running, prior remaining
≤ 1, mode Focus, a focus-started-at timestamp recorded) emits exactly one
completed-session event; it carries startedAt = the recorded timestamp,
endedAt = the completion time, and the collaborator-supplied
focus-seconds/app-usage unchanged; focus-started-at is cleared afterwards.
When no timestamp is recorded, no completion emits a session event. -/
theorem tick_session_emission (cfg : AppConfig) (now t0 : ℕ) (fs : Option ℤ)
    (usage : List UsageSeg) (s : TimerState)
    (hrun : s.isRunning = true) (hrem : s.remaining ≤ 1) :
    ((tick cfg now fs usage s).1.focusStartedAt = none)
    ∧ (s.mode = Mode.focus → s.focusStartedAt = some t0 →
        (tick cfg now fs usage s).2.filter Ev.isSession
          = [Ev.sessionCompleted t0 now fs usage])
    ∧ (s.focusStartedAt = none →
        (tick cfg now fs usage s).2.filter Ev.isSession = []) := by
  refine ⟨?_, ?_, ?_⟩
  · simp [tick, hrun, hrem]
  · intro hm hf
    cases hp : cfg.playTick <;>
      simp [tick, hrun, hrem, hm, hf, hp, Ev.isSession]
  · intro hf
    cases hp : cfg.playTick <;> rcases hm : s.mode <;>
      simp [tick, hrun, hrem, hm, hf, hp, Ev.isSession]

/-- A concrete running Focus state one second before completion, with a
focus-started-at stamp of 5. -/
def nearDoneFocus : TimerState :=
  { mode := Mode.focus
    remaining := 1
    isRunning := true
    pendingMode := none
    focusStartedAt := some 5
    nextTickIsTick := true }

/-- Witness for C2 at a concrete completing Focus tick. -/
theorem tick_session_emission_witness :
    (tick defaultConfig 1505 (some 1480) [] nearDoneFocus).2.filter Ev.isSession
      = [Ev.sessionCompleted 5 1505 (some 1480) []] :=
  (tick_session_emission defaultConfig 1505 5 (some 1480) [] nearDoneFocus
      rfl (by norm_num [nearDoneFocus])).2.1 rfl rfl

/-- C3: a Tick in a running state whose prior remaining is ≤ 1 is a
completion: the completing mode's end cue is emitted, the mode flips to
the opposite mode, is-running becomes false (no auto-continue), and
remaining is reset to the new mode's total. -/
theorem tick_completion (cfg : AppConfig) (now : ℕ) (fs : Option ℤ)
    (usage : List UsageSeg) (s : TimerState)
    (hrun : s.isRunning = true) (hrem : s.remaining ≤ 1) :
    Ev.cue s.mode AudioEvent.finish ∈ (tick cfg now fs usage s).2
    ∧ (tick cfg now fs usage s).1.mode = opposite s.mode
    ∧ (tick cfg now fs usage s).1.isRunning = false
    ∧ (tick cfg now fs usage s).1.remaining = totalFor cfg (opposite s.mode) := by
  refine ⟨?_, ?_, ?_, ?_⟩ <;>
    cases hp : cfg.playTick <;>
    simp [tick, hrun, hrem, hp]

/-- Witness for C3 at the same concrete completing tick. -/
theorem tick_completion_witness :
    (tick defaultConfig 1505 none [] nearDoneFocus).1.isRunning = false :=
  (tick_completion defaultConfig 1505 none [] nearDoneFocus rfl
      (by norm_num [nearDoneFocus])).2.2.1

/-- C4: Request-Mode-Switch switches immediately exactly when idle at the
current mode's full total; otherwise it only records the opposite mode as
pending, changing neither mode nor remaining; Cancel-Switch clears the
pending mode leaving mode and remaining unchanged; Confirm-Switch is a
no-op without a pending mode, and with one applies it with is-running
false and remaining the new mode's total, clearing the pending mode. -/
theorem modeSwitch_confirmation (cfg : AppConfig) (s : TimerState) (m : Mode) :
    (s.isRunning = false → s.remaining = totalFor cfg s.mode →
      (requestModeSwitch cfg s).isRunning = false
      ∧ (requestModeSwitch cfg s).mode = opposite s.mode
      ∧ (requestModeSwitch cfg s).remaining = totalFor cfg (opposite s.mode))
    ∧ (s.isRunning = true ∨ s.remaining ≠ totalFor cfg s.mode →
      (requestModeSwitch cfg s).pendingMode = some (opposite s.mode)
      ∧ (requestModeSwitch cfg s).mode = s.mode
      ∧ (requestModeSwitch cfg s).remaining = s.remaining
      ∧ (requestModeSwitch cfg s).isRunning = s.isRunning)
    ∧ ((cancelModeSwitch s).pendingMode = none
      ∧ (cancelModeSwitch s).mode = s.mode
      ∧ (cancelModeSwitch s).remaining = s.remaining)
    ∧ (s.pendingMode = some m →
      (confirmModeSwitch cfg s).isRunning = false
      ∧ (confirmModeSwitch cfg s).mode = m
      ∧ (confirmModeSwitch cfg s).remaining = totalFor cfg m
      ∧ (confirmModeSwitch cfg s).pendingMode = none)
    ∧ (s.pendingMode = none → confirmModeSwitch cfg s = s) := by
  refine ⟨?_, ?_, ?_, ?_, ?_⟩
  · intro h1 h2
    simp [requestModeSwitch, applyModeSwitch, h1, h2]
  · intro h
    rcases h with h | h <;> simp [requestModeSwitch, h]
  · simp [cancelModeSwitch]
  · intro h
    simp [confirmModeSwitch, applyModeSwitch, h]
  · intro h
    simp [confirmModeSwitch, h]

/-- A concrete Running-Focus state with partial progress. -/
def midRunFocus : TimerState :=
  { mode := Mode.focus
    remaining := 754
    isRunning := true
    pendingMode := none
    focusStartedAt := some 0
    nextTickIsTick := true }

/-- Witness for C4: requesting a switch while Running-Focus only records
the pending Break mode. -/
theorem modeSwitch_confirmation_witness :
    (requestModeSwitch defaultConfig midRunFocus).pendingMode
      = some (opposite Mode.focus)
    ∧ (requestModeSwitch defaultConfig midRunFocus).mode = Mode.focus :=
  let h := (modeSwitch_confirmation defaultConfig midRunFocus Mode.brk).2.1
    (Or.inl rfl)
  ⟨h.1, h.2.1⟩

lemma step_preserves_inv (s : Sys) (a : Act) (hinv : Inv s)
    (hcfg : ∀ newCfg, a = Act.configChange newCfg → s.st.isRunning = false) :
    Inv (step s a) := by
  unfold Inv at *
  cases a with
  | tick now fs usage =>
      by_cases hr : s.st.isRunning
      · by_cases hrem : s.st.remaining ≤ 1
        · simp [step, tick, hr, hrem]
        · simp [step, tick, hr, hrem]
          omega
      · simp [step, tick, hr]
        exact hinv
  | toggle now =>
      simpa [step, toggleRunning] using hinv
  | request =>
      by_cases hc : s.st.isRunning = true ∨ s.st.remaining ≠ totalFor s.cfg s.st.mode
      · rcases hc with hc | hc <;> simp [step, requestModeSwitch, hc] <;> exact hinv
      · push_neg at hc
        simp [step, requestModeSwitch, hc.1, hc.2, applyModeSwitch]
  | confirm =>
      cases hp : s.st.pendingMode with
      | none => simpa [step, confirmModeSwitch, hp] using hinv
      | some m => simp [step, confirmModeSwitch, hp, applyModeSwitch]
  | cancel =>
      simpa [step, cancelModeSwitch] using hinv
  | applySwitch m =>
      simp [step, applyModeSwitch]
  | configChange newCfg =>
      have hidle : s.st.isRunning = false := hcfg newCfg rfl
      by_cases heq : s.st.remaining = totalFor s.cfg s.st.mode
      · simp [step, configChanged, hidle, heq]
      · by_cases hgt : totalFor newCfg s.st.mode < s.st.remaining
        · simp [step, configChanged, hidle, heq, hgt]
        · simp [step, configChanged, hidle, heq, hgt]
          omega

lemma run_preserves_inv :
    ∀ (acts : List Act) (s : Sys), Inv s → IdleCfgOk s acts → Inv (run s acts)
  | [], _, h, _ => h
  | a :: rest, s, h, hok => by
      have hstep := step_preserves_inv s a h (fun newCfg hc => by
        have h1 := hok.1
        subst hc
        exact h1)
      exact run_preserves_inv rest (step s a) hstep hok.2

/-- C5 (amended): starting from the initial Idle-Focus state of any
configuration, along any sequence of Tick, Toggle-Running,
Request/Confirm/Cancel-Mode-Switch, Apply-Mode-Switch and
Configuration-Changed transitions in which every Configuration-Changed
event arrives while the timer is not running, remaining-seconds never
exceeds the total-seconds of the currently active mode. -/
theorem reachable_remaining_le_total (cfg : AppConfig) (acts : List Act)
    (hok : IdleCfgOk (initSys cfg) acts) :
    Inv (run (initSys cfg) acts) := by
  refine run_preserves_inv acts (initSys cfg) ?_ hok
  unfold Inv initSys initState
  simp

/-- Configuration with focus-minutes shortened to 1 minute. -/
def shortFocusConfig : AppConfig :=
  { defaultConfig with focusMinutes := JSNum.ofInt 1 }

lemma totalFor_defaultConfig_focus : totalFor defaultConfig Mode.focus = 1500 := by
  show clampTimerMinutes (JSNum.ofInt 25) * 60 = 1500
  rw [clampTimerMinutes_ofInt 25 (by norm_num) (by norm_num)]
  norm_num

lemma totalFor_shortFocusConfig_focus : totalFor shortFocusConfig Mode.focus = 60 := by
  show clampTimerMinutes (JSNum.ofInt 1) * 60 = 60
  rw [clampTimerMinutes_ofInt 1 (by norm_num) (by norm_num)]
  norm_num

/-- C5 counterexample: starting the Focus timer and then shrinking
focus-minutes to 1 while it runs leaves remaining at 1500 while the active
mode's total drops to 60, so the invariant fails on a state reachable by a
Toggle-Running followed by a Configuration-Changed transition. -/
theorem reachable_remaining_le_total_cex :
    ¬ Inv (run (initSys defaultConfig)
        [Act.toggle 0, Act.configChange shortFocusConfig]) := by
  have hstep1 : step (initSys defaultConfig) (Act.toggle 0)
      = { cfg := defaultConfig,
          st := { mode := Mode.focus
                  remaining := totalFor defaultConfig Mode.focus
                  isRunning := true
                  pendingMode := none
                  focusStartedAt := some 0
                  nextTickIsTick := true } } := by
    simp [step, toggleRunning, initSys, initState]
  have hrun : run (initSys defaultConfig)
      [Act.toggle 0, Act.configChange shortFocusConfig]
      = { cfg := shortFocusConfig,
          st := { mode := Mode.focus
                  remaining := totalFor defaultConfig Mode.focus
                  isRunning := true
                  pendingMode := none
                  focusStartedAt := some 0
                  nextTickIsTick := true } } := by
    show step (step (initSys defaultConfig) (Act.toggle 0))
        (Act.configChange shortFocusConfig) = _
    rw [hstep1]
    simp [step, configChanged]
  rw [hrun]
  unfold Inv
  rw [totalFor_defaultConfig_focus]
  rw [totalFor_shortFocusConfig_focus]
  norm_num

/-- Witness for the amended C5: a configuration change arriving while idle
keeps the invariant along a concrete two-action sequence. -/
theorem reachable_remaining_le_total_witness :
    Inv (run (initSys defaultConfig)
        [Act.configChange shortFocusConfig, Act.toggle 0]) :=
  reachable_remaining_le_total defaultConfig
    [Act.configChange shortFocusConfig, Act.toggle 0]
    ⟨rfl, trivial, trivial⟩

/-- A current configuration whose ambient volumes are
`{fire: 0, rain: 20, forest: 0}`. -/
def rain20Config : AppConfig :=
  { defaultConfig with
      ambientVolumes :=
        { fire := JSNum.ofInt 0, rain := JSNum.ofInt 20, forest := JSNum.ofInt 0 } }

/-- The partial update `{ambientVolumes: {fire: 40}}`. -/
def fire40Partial : PartialAppConfig :=
  { ambientVolumes := some { fire := some (JSNum.ofInt 40) } }

/-- C6: the `config:set` merge keeps every ambient-volume key the partial
does not mention and overwrites every key it does mention (in particular
merging `{fire: 40}` onto `{fire: 0, rain: 20, forest: 0}` gives
`{fire: 40, rain: 20, forest: 0}`), re-clamps focus-minutes and
break-minutes independently — each from its own partial field alone — and
persists and broadcasts exactly the full merged configuration. -/
theorem configSet_merge :
    (∀ (store : AppConfig) (v : PartialAppConfig),
        configSetHandler store v
          = { persisted := configSet (getConfig store) v
              broadcast := configSet (getConfig store) v
              returned := configSet (getConfig store) v })
    ∧ (∀ c v, v.ambientVolumes = none →
        (configSet c v).ambientVolumes = c.ambientVolumes)
    ∧ (∀ c v p, v.ambientVolumes = some p →
        (configSet c v).ambientVolumes
          = { fire := p.fire.getD c.ambientVolumes.fire
              rain := p.rain.getD c.ambientVolumes.rain
              forest := p.forest.getD c.ambientVolumes.forest })
    ∧ (∀ c v, v.focusMinutes = none →
        (configSet c v).focusMinutes = c.focusMinutes)
    ∧ (∀ c v x, v.focusMinutes = some x →
        (configSet c v).focusMinutes = JSNum.ofInt (clampTimerMinutes x))
    ∧ (∀ c v, v.breakMinutes = none →
        (configSet c v).breakMinutes = c.breakMinutes)
    ∧ (∀ c v x, v.breakMinutes = some x →
        (configSet c v).breakMinutes = JSNum.ofInt (clampTimerMinutes x))
    ∧ (configSet rain20Config fire40Partial).ambientVolumes
        = { fire := JSNum.ofInt 40, rain := JSNum.ofInt 20,
            forest := JSNum.ofInt 0 } := by
  refine ⟨fun _ _ => rfl, ?_, ?_, ?_, ?_, ?_, ?_, ?_⟩
  · intro c v h
    simp [configSet, h]
  · intro c v p h
    simp [configSet, h]
  · intro c v h
    simp [configSet, h]
  · intro c v x h
    simp [configSet, h]
  · intro c v h
    simp [configSet, h]
  · intro c v x h
    simp [configSet, h]
  · rfl

/-- Witness for C6: the round-trip scenario, through the merge theorem. -/
theorem configSet_merge_witness :
    (configSet rain20Config fire40Partial).ambientVolumes
      = { fire := (some (JSNum.ofInt 40)).getD rain20Config.ambientVolumes.fire
          rain := Option.getD none rain20Config.ambientVolumes.rain
          forest := Option.getD none rain20Config.ambientVolumes.forest } :=
  configSet_merge.2.2.1 rain20Config fire40Partial
    { fire := some (JSNum.ofInt 40) } rfl

lemma configSet_preserves_clamped (c : AppConfig) (v : PartialAppConfig)
    (hf : IsClampedMinutes c.focusMinutes)
    (hb : IsClampedMinutes c.breakMinutes) :
    IsClampedMinutes (configSet c v).focusMinutes
    ∧ IsClampedMinutes (configSet c v).breakMinutes := by
  constructor
  · cases hv : v.focusMinutes with
    | none => simpa [configSet, hv] using hf
    | some x =>
        refine ⟨clampTimerMinutes x, ?_, (clampTimerMinutes_bounds x).1,
          (clampTimerMinutes_bounds x).2⟩
        simp [configSet, hv]
  · cases hv : v.breakMinutes with
    | none => simpa [configSet, hv] using hb
    | some x =>
        refine ⟨clampTimerMinutes x, ?_, (clampTimerMinutes_bounds x).1,
          (clampTimerMinutes_bounds x).2⟩
        simp [configSet, hv]

lemma applyConfigOps_clamped :
    ∀ (ops : List PartialAppConfig) (c : AppConfig),
      IsClampedMinutes c.focusMinutes → IsClampedMinutes c.breakMinutes →
      IsClampedMinutes (applyConfigOps c ops).focusMinutes
      ∧ IsClampedMinutes (applyConfigOps c ops).breakMinutes
  | [], _, hf, hb => ⟨hf, hb⟩
  | v :: rest, c, hf, hb => by
      have h := configSet_preserves_clamped c v hf hb
      exact applyConfigOps_clamped rest (configSet c v) h.1 h.2

/-- C7: starting from the persisted defaults, after any sequence of
`config:set` updates the persisted configuration's focus-minutes and
break-minutes are integers clamped to `[1, 120]` (so they are clamped on
the write path and never stored unclamped), and the `config:get` snapshot
returns exactly that persisted configuration — hence every snapshot also
has clamped minutes (its ambient-volume record always carries all three
keys by construction). -/
theorem config_minutes_always_clamped (ops : List PartialAppConfig) :
    IsClampedMinutes (applyConfigOps defaultConfig ops).focusMinutes
    ∧ IsClampedMinutes (applyConfigOps defaultConfig ops).breakMinutes
    ∧ getConfig (applyConfigOps defaultConfig ops)
        = applyConfigOps defaultConfig ops := by
  have h := applyConfigOps_clamped ops defaultConfig
    ⟨DEFAULT_FOCUS_MINUTES, rfl, by norm_num [DEFAULT_FOCUS_MINUTES,
      MIN_TIMER_MINUTES], by norm_num [DEFAULT_FOCUS_MINUTES,
      MAX_TIMER_MINUTES]⟩
    ⟨DEFAULT_BREAK_MINUTES, rfl, by norm_num [DEFAULT_BREAK_MINUTES,
      MIN_TIMER_MINUTES], by norm_num [DEFAULT_BREAK_MINUTES,
      MAX_TIMER_MINUTES]⟩
  exact ⟨h.1, h.2, rfl⟩

/-- A well-formed import entry. -/
def goodImportEntry : JValue :=
  JValue.obj [("startedAt", JValue.str "2024-01-01T09:00:00.000Z"),
              ("endedAt", JValue.str "2024-01-01T09:25:00.000Z")]

/-- A recognized envelope whose sessions array mixes the well-formed entry
with a malformed one (a bare number). -/
def mixedImportPayload : JValue :=
  JValue.obj [("sessions",
    JValue.arr [goodImportEntry, JValue.num (JSNum.num 42)])]

/-- The record extracted from `goodImportEntry`. -/
def goodImportRecord : SessionRecord :=
  { startedAt := "2024-01-01T09:00:00.000Z"
    endedAt := "2024-01-01T09:25:00.000Z"
    focusSeconds := none
    appUsage := none }

/-- A non-empty pre-existing session store. -/
def preexistingStore : List SessionRecord :=
  [{ startedAt := "2023-12-31T10:00:00.000Z"
     endedAt := "2023-12-31T10:25:00.000Z"
     focusSeconds := some 1500
     appUsage := none }]

/-- C8 counterexample: a recognized payload whose non-empty sessions array
holds one well-formed and one malformed entry is not rejected; the import
succeeds and writes only the well-formed subset (1 of the 2 source
entries), so the importer does partially correct such a payload. -/
theorem import_partial_subset_cex :
    (extractSessionRecords mixedImportPayload).recognized = true
    ∧ (extractSessionRecords mixedImportPayload).sourceCount = 2
    ∧ (extractSessionRecords mixedImportPayload).records = [goodImportRecord]
    ∧ importSessions mixedImportPayload preexistingStore
        = (ImportResult.ok 1, [goodImportRecord]) :=
  ⟨rfl, rfl, rfl, rfl⟩

/-- C8 (amended): an unrecognized payload, or a recognized payload whose
non-empty sessions array yields no acceptable record, is rejected as
invalid-format before any write, leaving the stored sessions unchanged;
otherwise the acceptable subset of the entries — possibly a strict subset
of a non-empty sessions array, with the malformed entries silently
dropped — replaces the store wholesale. -/
theorem import_rejects_or_writes_subset (parsed : JValue)
    (store : List SessionRecord) :
    ((extractSessionRecords parsed).recognized = false →
      importSessions parsed store = (ImportResult.invalidFormat, store))
    ∧ (0 < (extractSessionRecords parsed).sourceCount →
        (extractSessionRecords parsed).records = [] →
        importSessions parsed store = (ImportResult.invalidFormat, store))
    ∧ ((extractSessionRecords parsed).recognized = true →
        (extractSessionRecords parsed).records ≠ [] →
        importSessions parsed store
          = (ImportResult.ok (extractSessionRecords parsed).records.length,
              (extractSessionRecords parsed).records))
    ∧ ((extractSessionRecords parsed).recognized = true →
        (extractSessionRecords parsed).sourceCount = 0 →
        importSessions parsed store
          = (ImportResult.ok (extractSessionRecords parsed).records.length,
              (extractSessionRecords parsed).records)) := by
  refine ⟨?_, ?_, ?_, ?_⟩
  · intro h
    simp [importSessions, h]
  · intro h1 h2
    simp [importSessions, h1, h2]
  · intro h1 h2
    have hlen : (extractSessionRecords parsed).records.length ≠ 0 := by
      simpa [List.length_eq_zero] using h2
    simp [importSessions, h1, hlen]
  · intro h1 h2
    simp [importSessions, h1, h2]

/-- Witness for the amended C8: an unrecognized payload (a bare JSON
null) is rejected and the store is untouched. -/
theorem import_rejects_or_writes_subset_witness :
    importSessions JValue.null preexistingStore
      = (ImportResult.invalidFormat, preexistingStore) :=
  (import_rejects_or_writes_subset JValue.null preexistingStore).1 rfl

lemma safePageQ_eq_one (page : JSNum)
    (h : ¬ ∃ q : ℚ, page = JSNum.num q ∧ 0 < q) : safePageQ page = 1 := by
  cases page with
  | num q =>
      have hq : ¬ 0 < q := fun hq => h ⟨q, rfl, hq⟩
      simp [safePageQ, hq]
  | nan => rfl
  | posInf => rfl
  | negInf => rfl

lemma safePageSizeQ_eq_ten (ps : JSNum)
    (h : ¬ ∃ q : ℚ, ps = JSNum.num q ∧ 0 < q) : safePageSizeQ ps = 10 := by
  cases ps with
  | num q =>
      have hq : ¬ 0 < q := fun hq => h ⟨q, rfl, hq⟩
      simp [safePageSizeQ, hq]
  | nan => rfl
  | posInf => rfl
  | negInf => rfl

lemma safePageQ_ofInt_pos (p : ℕ) (hp : 0 < p) :
    safePageQ (JSNum.ofInt p) = (p : ℚ) := by
  have h : (0:ℚ) < ((p : ℤ) : ℚ) := by exact_mod_cast hp
  show (if (0:ℚ) < ((p : ℤ) : ℚ) then ((p : ℤ) : ℚ) else 1) = (p : ℚ)
  rw [if_pos h]
  push_cast
  ring

lemma safePageSizeQ_ofInt_pos (n : ℕ) (hn : 0 < n) :
    safePageSizeQ (JSNum.ofInt n) = (n : ℚ) := by
  have h : (0:ℚ) < ((n : ℤ) : ℚ) := by exact_mod_cast hn
  show (if (0:ℚ) < ((n : ℤ) : ℚ) then ((n : ℤ) : ℚ) else 10) = (n : ℚ)
  rw [if_pos h]
  push_cast
  ring

lemma natCast_q_den_one (k : ℕ) : ((k : ℚ)).den = 1 :=
  Rat.den_natCast k

lemma listSessions_ofNat_eq (rows : List SessionRow) (p n : ℕ)
    (hp : 0 < p) (hn : 0 < n) :
    listSessions rows (JSNum.ofInt p) (JSNum.ofInt n)
      = SessionListResult.ok
          { items := (((sortRowsDesc rows).drop ((p - 1) * n)).take n).map
              rowToEntry
            total := rows.length } := by
  have hcast : ((p : ℚ) - 1) * (n : ℚ) = (((p - 1) * n : ℕ) : ℚ) := by
    push_cast [Nat.cast_sub hp]
    ring
  simp only [listSessions, safePageQ_ofInt_pos p hp,
    safePageSizeQ_ofInt_pos n hn, hcast, Rat.den_natCast, Rat.num_natCast,
    Int.toNat_natCast, and_self, if_true]

/-- C10 (amended): `listSessions` substitutes 1 for a page that is not a
finite positive number and 10 for such a pageSize; whenever the call
returns (rather than throwing the SQLite datatype-mismatch error that a
fractional positive page or pageSize provokes through the bound LIMIT /
OFFSET operands), it returns at most pageSize items, ordered by started-at
descending; for positive integer page and pageSize the result is exactly
the page at offset `(page - 1) * pageSize` of the whole table sorted
descending (a permutation of all stored rows) with `total` the full
stored count, whatever the page. -/
theorem listSessions_pagination :
    (∀ (rows : List SessionRow) (page pageSize : JSNum),
        ¬ (∃ q : ℚ, page = JSNum.num q ∧ 0 < q) →
        listSessions rows page pageSize
          = listSessions rows (JSNum.ofInt 1) pageSize)
    ∧ (∀ (rows : List SessionRow) (page pageSize : JSNum),
        ¬ (∃ q : ℚ, pageSize = JSNum.num q ∧ 0 < q) →
        listSessions rows page pageSize
          = listSessions rows page (JSNum.ofInt 10))
    ∧ (∀ (rows : List SessionRow) (page : JSNum) (n : ℕ)
        (out : SessionList), 0 < n →
        listSessions rows page (JSNum.ofInt n) = SessionListResult.ok out →
        out.items.length ≤ n)
    ∧ (∀ (rows : List SessionRow) (page pageSize : JSNum)
        (out : SessionList),
        listSessions rows page pageSize = SessionListResult.ok out →
        out.items.Pairwise (fun a b => b.startedAt ≤ a.startedAt))
    ∧ (∀ (rows : List SessionRow) (p n : ℕ), 0 < p → 0 < n →
        listSessions rows (JSNum.ofInt p) (JSNum.ofInt n)
          = SessionListResult.ok
              { items := (((sortRowsDesc rows).drop ((p - 1) * n)).take n).map
                  rowToEntry
                total := rows.length })
    ∧ (∀ rows : List SessionRow, List.Perm (sortRowsDesc rows) rows)
    ∧ (∀ (rows : List SessionRow) (page pageSize : JSNum)
        (out : SessionList),
        listSessions rows page pageSize = SessionListResult.ok out →
        out.total = rows.length) := by
  refine ⟨?_, ?_, ?_, ?_, listSessions_ofNat_eq, ?_, ?_⟩
  · intro rows page pageSize h
    have h1 : safePageQ (JSNum.ofInt 1) = 1 := by
      norm_num [safePageQ, JSNum.ofInt]
    simp only [listSessions, safePageQ_eq_one page h, h1]
  · intro rows page pageSize h
    have h10 : safePageSizeQ (JSNum.ofInt 10) = 10 := by
      norm_num [safePageSizeQ, JSNum.ofInt]
    simp only [listSessions, safePageSizeQ_eq_ten pageSize h, h10]
  · intro rows page n out hn hok
    simp only [listSessions, safePageSizeQ_ofInt_pos n hn, Rat.num_natCast,
      Int.toNat_natCast] at hok
    split at hok
    · rw [SessionListResult.ok.injEq] at hok
      subst hok
      simp only [List.length_map, List.length_take]
      omega
    · exact absurd hok (by simp)
  · intro rows page pageSize out hok
    have hs : List.Sorted rowDesc (sortRowsDesc rows) :=
      List.sorted_insertionSort rowDesc rows
    simp only [listSessions] at hok
    split at hok
    · rw [SessionListResult.ok.injEq] at hok
      subst hok
      rw [List.pairwise_map]
      exact List.Pairwise.sublist
        ((List.take_sublist _ _).trans (List.drop_sublist _ _)) hs
    · exact absurd hok (by simp)
  · intro rows
    exact List.perm_insertionSort rowDesc rows
  · intro rows page pageSize out hok
    simp only [listSessions] at hok
    split at hok
    · rw [SessionListResult.ok.injEq] at hok
      subst hok
      rfl
    · exact absurd hok (by simp)

/-- Two concrete session rows. -/
def rowEarly : SessionRow :=
  { id := 1, startedAt := "2024-01-01T09:00:00.000Z"
    endedAt := "2024-01-01T09:25:00.000Z", focusSeconds := some 1500
    usage := [] }

/-- A second, later concrete session row. -/
def rowLate : SessionRow :=
  { id := 2, startedAt := "2024-01-02T09:00:00.000Z"
    endedAt := "2024-01-02T09:25:00.000Z", focusSeconds := none
    usage := [] }

/-- The rational 5/2: a finite, positive, non-integral page size. -/
def twoPointFive : ℚ :=
  { num := 5, den := 2, den_nz := by norm_num, reduced := by norm_num }

/-- C10 counterexample: pageSize 2.5 is a finite number greater than 0,
so it is not substituted; the bound LIMIT operand is the non-integral
2.5, SQLite raises its datatype-mismatch error and the call throws
instead of returning items and a total. -/
theorem listSessions_fractional_mismatch_cex :
    (JSNum.num twoPointFive).isFinite = true
    ∧ (0 : ℚ) < twoPointFive
    ∧ listSessions [rowEarly, rowLate] (JSNum.ofInt 1)
        (JSNum.num twoPointFive) = SessionListResult.mismatchError := by
  have hpos : (0 : ℚ) < twoPointFive :=
    Rat.num_pos.mp (by norm_num [twoPointFive])
  refine ⟨rfl, hpos, ?_⟩
  have hps : safePageSizeQ (JSNum.num twoPointFive) = twoPointFive := by
    show (if (0 : ℚ) < twoPointFive then twoPointFive else 10) = twoPointFive
    rw [if_pos hpos]
  have hcond : ¬ (twoPointFive.den = 1
      ∧ ((safePageQ (JSNum.ofInt 1) - 1) * twoPointFive).den = 1) := by
    intro h
    have hden := h.1
    simp [twoPointFive] at hden
  simp only [listSessions, hps]
  rw [if_neg hcond]

/-- Witness for C10: the first page of size 10 over two stored rows. -/
theorem listSessions_pagination_witness :
    listSessions [rowEarly, rowLate] (JSNum.ofInt 1) (JSNum.ofInt 10)
      = SessionListResult.ok
          { items := (((sortRowsDesc [rowEarly, rowLate]).drop
              ((1 - 1) * 10)).take 10).map rowToEntry
            total := [rowEarly, rowLate].length } :=
  listSessions_pagination.2.2.2.2.1 [rowEarly, rowLate] 1 10
    (by norm_num) (by norm_num)

end Pomo
